import Mathlib

/-!
Verification of the authentication core of the book-review platform backend.

The definitions below are a shallow embedding of `src/backend/auth.py` and
`src/backend/main.py`:
* the in-memory `failed_attempts` dict becomes an association list from the
  attempted name to `(attempt count, last-failure time)`;
* `datetime.utcnow()` timestamps become integer seconds, passed explicitly;
* Python's `timedelta.seconds` attribute (the seconds *component* of the
  normalized timedelta, not the total) becomes `· % 86400` on the elapsed
  integer seconds;
* exceptions become `Except` values, and the mutation of the global
  `failed_attempts` dict becomes explicit state passing.
-/

/-- A row of the `user` table (`models.py`, class `User`): id, full name,
4-character PIN, role. `created_at` is irrelevant to the claims and omitted. -/
structure UserRec where
  id : Nat
  full_name : String
  pin_code : String
  role : String
deriving DecidableEq, Repr

/-- The global `failed_attempts` dict of `auth.py`: name ↦ (attempts, lock_time),
with `lock_time` in integer seconds. -/
abbrev FAState := List (String × Nat × Int)

/-- Dict membership / lookup: `failed_attempts[full_name]`. -/
def faLookup (fa : FAState) (name : String) : Option (Nat × Int) :=
  (fa.find? (fun e => e.1 == name)).map (fun e => e.2)

/-- `del failed_attempts[full_name]`. -/
def faErase (fa : FAState) (name : String) : FAState :=
  fa.filter (fun e => !(e.1 == name))

/-- `failed_attempts[full_name] = v` (insert or overwrite). -/
def faSet (fa : FAState) (name : String) (v : Nat × Int) : FAState :=
  faErase fa name ++ [(name, v)]

/-- Errors raised by the login flow (`HTTPException`s of `auth.py`):
429 "Account locked" and 401 "Invalid PIN". -/
inductive AuthError where
  | AccountLocked
  | InvalidPin
deriving DecidableEq, Repr

instance {ε α : Type} [DecidableEq ε] [DecidableEq α] :
    DecidableEq (Except ε α) := fun x y =>
  match x, y with
  | .error a, .error b =>
    if h : a = b then isTrue (by rw [h])
    else isFalse (fun hh => h (by injection hh))
  | .ok a, .ok b =>
    if h : a = b then isTrue (by rw [h])
    else isFalse (fun hh => h (by injection hh))
  | .error _, .ok _ => isFalse (fun hh => by injection hh)
  | .ok _, .error _ => isFalse (fun hh => by injection hh)

/-- Python `timedelta.seconds` of a timedelta of `elapsed` whole seconds:
the normalized seconds component, `elapsed mod 86400` (floor division
normalization, so always in `[0, 86400)`). -/
def tdSeconds (elapsed : Int) : Int := elapsed % 86400

/-- `check_failed_attempts` (`auth.py` lines 24–37). Returns the (possibly
reduced) dict, or raises `AccountLocked`:
if the name has a record with `attempts >= 3` and
`(utcnow() - lock_time).seconds < 1800`, raise; if `attempts >= 3` but the
seconds test fails, delete the record; otherwise leave the dict alone. -/
def check_failed_attempts (fa : FAState) (name : String) (now : Int) :
    Except AuthError FAState :=
  match faLookup fa name with
  | none => .ok fa
  | some (attempts, lock_time) =>
    if attempts ≥ 3 then
      if tdSeconds (now - lock_time) < 1800 then
        .error .AccountLocked
      else
        .ok (faErase fa name)
    else .ok fa

/-- SQL lower-casing of a name, character by character. -/
def lowerName (s : String) : List Char :=
  s.data.map Char.toLower

/-- The case-insensitive lookup
`select(User).where(User.full_name.ilike(full_name))).first()` of
`verify_pin`, for wildcard-free names: first user whose lower-cased
full name equals the lower-cased input. -/
def findUserCI (store : List UserRec) (name : String) : Option UserRec :=
  store.find? (fun u => lowerName u.full_name == lowerName name)

/-- The failed-attempt tracking block of `verify_pin` (`auth.py` lines 84–89):
increment the count and refresh the timestamp, or create the record with
count 1, keyed by the literal attempted name. -/
def recordFailure (fa : FAState) (name : String) (now : Int) : FAState :=
  match faLookup fa name with
  | some (attempts, _) => faSet fa name (attempts + 1, now)
  | none => faSet fa name (1, now)

/-- `verify_pin` (`auth.py` lines 77–103). Returns the outcome together with
the final `failed_attempts` dict:
1. `check_failed_attempts` (may raise `AccountLocked`, may delete the record);
2. case-insensitive user lookup; `if not user or user.pin_code != pin_code`,
   record the failure and raise the generic 401;
3. on success, delete the record under the literal attempted name if present. -/
def verify_pin (store : List UserRec) (fa : FAState) (name pin : String)
    (now : Int) : Except AuthError UserRec × FAState :=
  match check_failed_attempts fa name now with
  | .error e => (.error e, fa)
  | .ok fa1 =>
    match findUserCI store name with
    | none => (.error .InvalidPin, recordFailure fa1 name now)
    | some u =>
      if u.pin_code ≠ pin then
        (.error .InvalidPin, recordFailure fa1 name now)
      else
        (.ok u, faErase fa1 name)

/-- `ACCESS_TOKEN_EXPIRE_HOURS = 24`, in seconds. -/
def accessTokenExpireSeconds : Int := 24 * 3600

/-- The JWT payload assembled by `create_access_token` (`auth.py` lines 39–43)
from the dict `{full_name, role, user_id}` passed by the login endpoints:
the original claims plus `exp` and `sub = data.get("full_name")`. The signed
token is modeled as its (authentically signed) payload. -/
structure TokenPayload where
  full_name : String
  role : String
  user_id : Nat
  sub : Option String
  exp : Int
deriving DecidableEq, Repr

/-- `create_access_token` (`auth.py` lines 39–43): copy the data, set
`exp = utcnow() + 24 hours` and `sub = data.get("full_name")`. -/
def create_access_token (full_name role : String) (user_id : Nat)
    (now : Int) : TokenPayload :=
  { full_name := full_name
    role := role
    user_id := user_id
    sub := some full_name
    exp := now + accessTokenExpireSeconds }

/-- The token-decoding half of `get_current_user` (`auth.py` lines 64–70):
`jwt.decode` of an authentically signed token fails (JWTError) once the
validation time has reached `exp`; afterwards the subject claim is read and
its absence also rejects. On success it yields the claims the payload
carries: subject, role, user id. -/
def decode_token (tok : TokenPayload) (now : Int) :
    Option (String × String × Nat) :=
  if now < tok.exp then
    match tok.sub with
    | some s => some (s, tok.role, tok.user_id)
    | none => none
  else none

/-- The exact-match collision probe of `register_user` (`main.py`):
`select(User).where((User.full_name == name) & (User.pin_code == pin))).first()`
is truthy iff some stored row has this exact name and PIN. -/
def existsNamePin (store : List UserRec) (name pin : String) : Bool :=
  store.any (fun u => u.full_name == name && u.pin_code == pin)

/-- The 500 error of `register_user`: "Could not generate unique PIN". -/
inductive RegError where
  | IssuanceExhausted
deriving DecidableEq, Repr

/-- The `while existing and attempts < 100` retry loop of `register_user`
(`main.py` lines 90–100). `pins k` is the value of the (k+1)-st call to
`generate_pin()` (so `pins 0` is the PIN generated before the loop); on
entering the body with counter `attempts`, the loop draws `pins (attempts+1)`,
re-probes the store and increments the counter. `fuel` bounds the recursion;
any `fuel > 100` is beyond reach of the `attempts < 100` guard. Returns the
final `(attempts, pin, existing)`. -/
def regLoop (store : List UserRec) (name : String) (pins : Nat → String) :
    Nat → String → Bool → Nat → Nat × String × Bool
  | 0, pin, existing, attempts => (attempts, pin, existing)
  | fuel + 1, pin, existing, attempts =>
    if existing && attempts < 100 then
      let pin2 := pins (attempts + 1)
      regLoop store name pins fuel pin2 (existsNamePin store name pin2)
        (attempts + 1)
    else (attempts, pin, existing)

/-- `register_user` (`main.py` lines 74–127), with the stream of
`generate_pin()` outcomes passed in as `pins` and the row id the database
would assign as `newId`: generate a PIN, re-generate while the exact
(name, pin) pair exists and `attempts < 100`, raise the 500 error when the
final counter satisfies `attempts >= 100`, otherwise insert the new row with
role "user" and return it along with its PIN. On the error path nothing has
been added to the session, so no row is stored. -/
def register_user (store : List UserRec) (name : String) (pins : Nat → String)
    (newId : Nat) : Except RegError (List UserRec × String) :=
  let pin0 := pins 0
  let r := regLoop store name pins 101 pin0 (existsNamePin store name pin0) 0
  if r.1 ≥ 100 then .error .IssuanceExhausted
  else .ok (store ++ [⟨newId, name, r.2.1, "user"⟩], r.2.1)

/-- The store after a `register_user` request: the new store on success, the
old one when the 500 error is raised (the exception fires before
`session.add`). -/
def registerApply (store : List UserRec) (name : String) (pins : Nat → String)
    (newId : Nat) : List UserRec :=
  match register_user store name pins newId with
  | .ok (s, _) => s
  | .error _ => store

/-- A sequence of `register_user` requests, each a (name, pin stream, new id)
triple, applied in order. -/
def registerSeq (store : List UserRec)
    (reqs : List (String × (Nat → String) × Nat)) : List UserRec :=
  reqs.foldl (fun s r => registerApply s r.1 r.2.1 r.2.2) store

/-- No two stored identities share both the full name and the PIN
(the uniqueness the registration collision probe is there to keep). -/
def PinUnique (store : List UserRec) : Prop :=
  store.Pairwise (fun u v => ¬(u.full_name = v.full_name ∧ u.pin_code = v.pin_code))

instance : DecidablePred PinUnique := fun _ => by
  unfold PinUnique; infer_instance

/-- The default-admin record created by `lifespan` (`main.py` lines 41–54). -/
def defaultAdmin (newId : Nat) : UserRec :=
  ⟨newId, "Abiel Robinson", "0000", "admin"⟩

/-- The admin-seeding step of `lifespan` (`main.py` lines 41–54): look up a
user whose `full_name` is exactly "Abiel Robinson"; if none exists, insert
one with `pin_code = "0000"` and `role = "admin"` (row id assigned by the
database as `newId`). -/
def lifespan_admin_init (store : List UserRec) (newId : Nat) : List UserRec :=
  if store.any (fun u => u.full_name == "Abiel Robinson") then store
  else store ++ [defaultAdmin newId]

/-! ### Basic facts about the `failed_attempts` dict operations -/

theorem faLookup_faErase_self (fa : FAState) (name : String) :
    faLookup (faErase fa name) name = none := by
  unfold faLookup faErase
  rw [List.find?_filter, Option.map_eq_none', List.find?_eq_none]
  intro e _
  simp

theorem faLookup_faErase_ne (fa : FAState) (name other : String)
    (h : other ≠ name) : faLookup (faErase fa name) other = faLookup fa other := by
  induction fa with
  | nil => rfl
  | cons e fa ih =>
    unfold faLookup faErase at ih ⊢
    rw [List.filter_cons]
    by_cases he : (e.1 == name) = true
    · have h1 : (!(e.1 == name)) = false := by simp [he]
      rw [h1]
      have h2 : ¬((e.1 == other) = true) := by
        simp only [beq_iff_eq] at he ⊢
        rw [he]
        exact fun hh => h hh.symm
      simp only [Bool.false_eq_true, if_false]
      rw [@List.find?_cons_of_neg _ (fun x => x.1 == other) e fa h2]
      exact ih
    · have h1 : (!(e.1 == name)) = true := by simp [he]
      rw [h1]
      simp only [if_true]
      by_cases h2 : (e.1 == other) = true
      · rw [@List.find?_cons_of_pos _ (fun x => x.1 == other) e
            (List.filter (fun x => !(x.1 == name)) fa) h2,
          @List.find?_cons_of_pos _ (fun x => x.1 == other) e fa h2]
      · rw [@List.find?_cons_of_neg _ (fun x => x.1 == other) e
            (List.filter (fun x => !(x.1 == name)) fa) h2,
          @List.find?_cons_of_neg _ (fun x => x.1 == other) e fa h2]
        exact ih

theorem faLookup_faSet_self (fa : FAState) (name : String) (v : Nat × Int) :
    faLookup (faSet fa name v) name = some v := by
  have h : List.find? (fun e => e.1 == name) (faErase fa name) = none := by
    have h0 := faLookup_faErase_self fa name
    unfold faLookup at h0
    exact Option.map_eq_none'.mp h0
  unfold faLookup faSet
  rw [List.find?_append, h]
  simp

theorem faLookup_recordFailure_none (fa : FAState) (name : String) (now : Int)
    (h : faLookup fa name = none) :
    faLookup (recordFailure fa name now) name = some (1, now) := by
  simp [recordFailure, h, faLookup_faSet_self]

theorem faLookup_recordFailure_some (fa : FAState) (name : String) (now : Int)
    (a : Nat) (t : Int) (h : faLookup fa name = some (a, t)) :
    faLookup (recordFailure fa name now) name = some (a + 1, now) := by
  simp [recordFailure, h, faLookup_faSet_self]

/-! ### Facts about `check_failed_attempts` -/

theorem check_ok_none (fa : FAState) (name : String) (now : Int)
    (h : faLookup fa name = none) :
    check_failed_attempts fa name now = .ok fa := by
  simp [check_failed_attempts, h]

theorem check_ok_low (fa : FAState) (name : String) (now : Int) (a : Nat)
    (t : Int) (h : faLookup fa name = some (a, t)) (ha : a < 3) :
    check_failed_attempts fa name now = .ok fa := by
  simp [check_failed_attempts, h, Nat.not_le.mpr ha]

theorem check_locked (fa : FAState) (name : String) (now : Int) (a : Nat)
    (t : Int) (h : faLookup fa name = some (a, t)) (ha : 3 ≤ a)
    (h0 : 0 ≤ now - t) (h30 : now - t < 1800) :
    check_failed_attempts fa name now = .error .AccountLocked := by
  have hmod : tdSeconds (now - t) = now - t :=
    Int.emod_eq_of_lt h0 (by omega)
  simp [check_failed_attempts, h, ha, hmod, h30]

theorem check_ok_cases (fa fa1 : FAState) (name : String) (now : Int)
    (h : check_failed_attempts fa name now = .ok fa1) :
    fa1 = fa ∨ fa1 = faErase fa name := by
  unfold check_failed_attempts at h
  cases hrec : faLookup fa name with
  | none => rw [hrec] at h; exact Or.inl (Except.ok.inj h).symm
  | some p =>
    rw [hrec] at h
    by_cases ha : p.1 ≥ 3
    · by_cases hs : tdSeconds (now - p.2) < 1800
      · simp [ha, hs] at h
      · simp only [ha, if_pos, if_neg hs] at h
        exact Or.inr (Except.ok.inj h).symm
    · simp only [if_neg ha] at h
      exact Or.inl (Except.ok.inj h).symm

/-! ### Facts about `verify_pin` -/

theorem verify_pin_locked_of (fa : FAState) (name : String) (now : Int)
    (a : Nat) (t : Int) (h : faLookup fa name = some (a, t)) (ha : 3 ≤ a)
    (h0 : 0 ≤ now - t) (h30 : now - t < 1800) (store : List UserRec)
    (pin : String) :
    verify_pin store fa name pin now = (.error .AccountLocked, fa) := by
  unfold verify_pin
  rw [check_locked fa name now a t h ha h0 h30]

theorem verify_pin_wrong (store : List UserRec) (fa fa1 : FAState)
    (name pin : String) (now : Int)
    (hchk : check_failed_attempts fa name now = .ok fa1)
    (hw : ∀ u, findUserCI store name = some u → u.pin_code ≠ pin) :
    verify_pin store fa name pin now =
      (.error .InvalidPin, recordFailure fa1 name now) := by
  unfold verify_pin
  rw [hchk]
  cases hu : findUserCI store name with
  | none => rfl
  | some u => simp [hw u hu]

theorem verify_pin_ok_inv (store : List UserRec) (fa : FAState)
    (name pin : String) (now : Int) (u : UserRec) (fa2 : FAState)
    (h : verify_pin store fa name pin now = (.ok u, fa2)) :
    ∃ fa1, check_failed_attempts fa name now = .ok fa1 ∧
      fa2 = faErase fa1 name := by
  unfold verify_pin at h
  cases hchk : check_failed_attempts fa name now with
  | error e => rw [hchk] at h; simp at h
  | ok fa1 =>
    rw [hchk] at h
    refine ⟨fa1, rfl, ?_⟩
    cases hu : findUserCI store name with
    | none => rw [hu] at h; simp at h
    | some v =>
      rw [hu] at h
      by_cases hp : v.pin_code ≠ pin
      · simp [hp] at h
      · simp only [if_neg hp] at h
        exact (Prod.mk.injEq _ _ _ _ ▸ h).2.symm

theorem findUserCI_pin_ne (store : List UserRec) (name wrong : String)
    (hw : ∀ u ∈ store, lowerName u.full_name = lowerName name →
      u.pin_code ≠ wrong) :
    ∀ u, findUserCI store name = some u → u.pin_code ≠ wrong := by
  intro u hu
  have hmem := List.mem_of_find?_eq_some hu
  have hp := List.find?_some hu
  simp only [beq_iff_eq] at hp
  exact hw u hmem hp

/-! ### The claims -/

/-- C1: whenever the lockout record of the attempted name has count ≥ 3 and
the last failure lies within the 30-minute window, `verify_pin` fails with
`AccountLocked` with the tracker untouched, and the outcome is the same for
every credential store and every supplied PIN (the correct one included):
the lockout check precedes any credential lookup or PIN comparison. -/
theorem verify_pin_locked_before_credentials (fa : FAState) (name : String)
    (now : Int) (a : Nat) (t : Int)
    (hrec : faLookup fa name = some (a, t)) (ha : 3 ≤ a)
    (h0 : 0 ≤ now - t) (h30 : now - t < 1800)
    (store : List UserRec) (pin : String) :
    verify_pin store fa name pin now = (.error .AccountLocked, fa) :=
  verify_pin_locked_of fa name now a t hrec ha h0 h30 store pin

def adaUser : UserRec := ⟨1, "Ada Lovelace", "1234", "user"⟩

def adaStore : List UserRec := [adaUser]

theorem verify_pin_locked_before_credentials_witness :
    verify_pin adaStore [("Ada Lovelace", 3, 0)] "Ada Lovelace" "1234" 100 =
      (.error .AccountLocked, [("Ada Lovelace", 3, 0)]) :=
  verify_pin_locked_before_credentials [("Ada Lovelace", 3, 0)]
    "Ada Lovelace" 100 3 0 (by decide) (by decide) (by decide) (by decide)
    adaStore "1234"

/-- C2: the code contradicts the claim. With a count-3 record whose last
failure lies exactly 24 hours in the past (86400 s ≥ 1800 s, so the
30-minute window has long elapsed), `check_failed_attempts` still raises
`AccountLocked` instead of deleting the record: Python's
`(utcnow() - lock_time).seconds` is the seconds component of the timedelta
and wraps around every 24 hours, here yielding 0 < 1800. -/
theorem check_failed_attempts_day_wraparound_bug :
    check_failed_attempts [("Ada Lovelace", 3, 0)] "Ada Lovelace" 86400 =
      .error .AccountLocked ∧
    (1800 : Int) ≤ 86400 - 0 ∧
    tdSeconds (86400 - 0) = 0 := by decide

/-- C3 as stated is false: starting with no lockout record, the third
consecutive failed attempt returns the generic invalid-credential error,
not `AccountLocked`, and a third attempt carrying the correct PIN simply
succeeds (the lockout only gates the attempt after the one that pushes the
count to 3). -/
theorem third_attempt_not_locked_cx :
    (verify_pin adaStore [] "Ada Lovelace" "9999" 0).2 =
      [("Ada Lovelace", 1, 0)] ∧
    (verify_pin adaStore [("Ada Lovelace", 1, 0)] "Ada Lovelace" "9999" 10).2 =
      [("Ada Lovelace", 2, 10)] ∧
    (verify_pin adaStore [("Ada Lovelace", 2, 10)] "Ada Lovelace" "9999" 20).1 =
      .error .InvalidPin ∧
    (verify_pin adaStore [("Ada Lovelace", 2, 10)] "Ada Lovelace" "9999" 20).1 ≠
      .error .AccountLocked ∧
    (verify_pin adaStore [("Ada Lovelace", 2, 10)] "Ada Lovelace" "1234" 20).1 =
      .ok adaUser := by decide

/-- C3 amended: starting from a state with no lockout record for the
attempted name, three consecutive failed attempts each return the generic
invalid-credential error and leave the count at 3; every subsequent attempt
within 30 minutes of the third failure then fails with `AccountLocked`,
even with the correct PIN. -/
theorem third_failure_generic_fourth_locked (store : List UserRec)
    (fa0 fa1 fa2 fa3 : FAState) (name wrong : String)
    (e1 e2 e3 : Except AuthError UserRec) (t1 t2 t3 now : Int)
    (h0 : faLookup fa0 name = none)
    (hw : ∀ u ∈ store, lowerName u.full_name = lowerName name →
      u.pin_code ≠ wrong)
    (h1 : verify_pin store fa0 name wrong t1 = (e1, fa1))
    (h2 : verify_pin store fa1 name wrong t2 = (e2, fa2))
    (h3 : verify_pin store fa2 name wrong t3 = (e3, fa3))
    (hn0 : 0 ≤ now - t3) (hn30 : now - t3 < 1800) :
    e1 = .error .InvalidPin ∧ e2 = .error .InvalidPin ∧
    e3 = .error .InvalidPin ∧ faLookup fa3 name = some (3, t3) ∧
    ∀ pin, verify_pin store fa3 name pin now = (.error .AccountLocked, fa3) := by
  have hwci := findUserCI_pin_ne store name wrong hw
  have s1 := verify_pin_wrong store fa0 fa0 name wrong t1
    (check_ok_none fa0 name t1 h0) hwci
  rw [h1] at s1
  obtain ⟨he1, hfa1⟩ := Prod.mk.injEq _ _ _ _ ▸ s1
  have l1 : faLookup fa1 name = some (1, t1) := by
    rw [hfa1]; exact faLookup_recordFailure_none fa0 name t1 h0
  have s2 := verify_pin_wrong store fa1 fa1 name wrong t2
    (check_ok_low fa1 name t2 1 t1 l1 (by omega)) hwci
  rw [h2] at s2
  obtain ⟨he2, hfa2⟩ := Prod.mk.injEq _ _ _ _ ▸ s2
  have l2 : faLookup fa2 name = some (2, t2) := by
    rw [hfa2]; exact faLookup_recordFailure_some fa1 name t2 1 t1 l1
  have s3 := verify_pin_wrong store fa2 fa2 name wrong t3
    (check_ok_low fa2 name t3 2 t2 l2 (by omega)) hwci
  rw [h3] at s3
  obtain ⟨he3, hfa3⟩ := Prod.mk.injEq _ _ _ _ ▸ s3
  have l3 : faLookup fa3 name = some (3, t3) := by
    rw [hfa3]; exact faLookup_recordFailure_some fa2 name t3 2 t2 l2
  refine ⟨he1, he2, he3, l3, fun pin => ?_⟩
  exact verify_pin_locked_of fa3 name now 3 t3 l3 (by omega) hn0 hn30 store pin

theorem third_failure_generic_fourth_locked_witness :
    verify_pin adaStore [("Ada Lovelace", 3, 20)] "Ada Lovelace" "1234" 30 =
      (.error .AccountLocked, [("Ada Lovelace", 3, 20)]) :=
  (third_failure_generic_fourth_locked adaStore []
    [("Ada Lovelace", 1, 0)] [("Ada Lovelace", 2, 10)] [("Ada Lovelace", 3, 20)]
    "Ada Lovelace" "9999"
    (.error .InvalidPin) (.error .InvalidPin) (.error .InvalidPin)
    0 10 20 30 (by decide) (by decide) (by decide) (by decide) (by decide)
    (by decide) (by decide)).2.2.2.2 "1234"

/-- C4 as stated is false: a failed-attempt record filed under a case
variation of the identity's name — one the case-insensitive credential
lookup resolves to the very same stored user — survives a successful login
under another spelling, because the success path only deletes the record
keyed by the literal attempted name. -/
theorem success_leaves_case_variant_record_cx :
    findUserCI adaStore "ada lovelace" = findUserCI adaStore "Ada Lovelace" ∧
    (verify_pin adaStore [("ada lovelace", 1, 0)] "Ada Lovelace" "1234" 100).1 =
      .ok adaUser ∧
    faLookup
      (verify_pin adaStore [("ada lovelace", 1, 0)] "Ada Lovelace" "1234" 100).2
      "ada lovelace" = some (1, 0) := by decide

/-- C4 amended: after any login `verify_pin` accepts, no failed-attempt
record remains under the exact literal name the login supplied, and every
record under any other key — case variations of the same identity's name
included — is left exactly as it was. -/
theorem success_clears_literal_key_only (store : List UserRec) (fa : FAState)
    (name pin : String) (now : Int) (u : UserRec) (fa2 : FAState)
    (h : verify_pin store fa name pin now = (.ok u, fa2)) :
    faLookup fa2 name = none ∧
    ∀ other, other ≠ name → faLookup fa2 other = faLookup fa other := by
  obtain ⟨fa1, hchk, hfa2⟩ := verify_pin_ok_inv store fa name pin now u fa2 h
  subst hfa2
  constructor
  · exact faLookup_faErase_self fa1 name
  · intro other ho
    rw [faLookup_faErase_ne fa1 name other ho]
    rcases check_ok_cases fa fa1 name now hchk with h1 | h1
    · rw [h1]
    · rw [h1, faLookup_faErase_ne fa name other ho]

theorem success_clears_literal_key_only_witness :
    faLookup
      (verify_pin adaStore [("Ada Lovelace", 2, 5)] "Ada Lovelace" "1234" 100).2
      "Ada Lovelace" = none :=
  (success_clears_literal_key_only adaStore [("Ada Lovelace", 2, 5)]
    "Ada Lovelace" "1234" 100 adaUser [] (by decide)).1

/-- C5: a non-locked failed attempt updates the lockout tracker and reports
the error in exactly the same way whether the attempted name matches no
stored identity (store1) or matches an identity whose PIN is wrong
(store2): both runs return the generic invalid-credential error with the
count incremented (or created at 1) and the timestamp refreshed under the
attempted name, so the two runs are indistinguishable. -/
theorem failed_attempt_indistinguishable (fa fa1 : FAState)
    (name pin : String) (now : Int) (store1 store2 : List UserRec)
    (u : UserRec)
    (hchk : check_failed_attempts fa name now = .ok fa1)
    (h1 : findUserCI store1 name = none)
    (h2 : findUserCI store2 name = some u) (hp : u.pin_code ≠ pin) :
    verify_pin store1 fa name pin now =
      (.error .InvalidPin, recordFailure fa1 name now) ∧
    verify_pin store2 fa name pin now =
      (.error .InvalidPin, recordFailure fa1 name now) ∧
    verify_pin store1 fa name pin now = verify_pin store2 fa name pin now := by
  have e1 := verify_pin_wrong store1 fa fa1 name pin now hchk
    (by intro v hv; rw [h1] at hv; cases hv)
  have e2 := verify_pin_wrong store2 fa fa1 name pin now hchk
    (by intro v hv; rw [h2] at hv; injection hv with hv2; rw [← hv2]; exact hp)
  exact ⟨e1, e2, e1.trans e2.symm⟩

theorem failed_attempt_indistinguishable_witness :
    verify_pin [] [] "Ada Lovelace" "9999" 0 =
      verify_pin adaStore [] "Ada Lovelace" "9999" 0 :=
  (failed_attempt_indistinguishable [] [] "Ada Lovelace" "9999" 0 [] adaStore
    adaUser (by decide) (by decide) (by decide) (by decide)).2.2

/-- C9: whenever `verify_pin` fails with `AccountLocked`, the
`failed_attempts` dict comes back exactly as it went in — the count is not
incremented and the timestamp not refreshed — so attempts made against a
locked account never extend the lockout window. -/
theorem locked_failure_leaves_state_unchanged (store : List UserRec)
    (fa : FAState) (name pin : String) (now : Int)
    (h : (verify_pin store fa name pin now).1 = .error .AccountLocked) :
    (verify_pin store fa name pin now).2 = fa := by
  unfold verify_pin
  cases hchk : check_failed_attempts fa name now with
  | error e => rfl
  | ok fa1 =>
    exfalso
    unfold verify_pin at h
    rw [hchk] at h
    dsimp only at h
    cases hu : findUserCI store name with
    | none => rw [hu] at h; exact nomatch h
    | some u =>
      rw [hu] at h
      dsimp only at h
      by_cases hp : u.pin_code ≠ pin
      · rw [if_pos hp] at h; exact nomatch h
      · rw [if_neg hp] at h; exact nomatch h

theorem locked_failure_leaves_state_unchanged_witness :
    (verify_pin adaStore [("Ada Lovelace", 3, 0)] "Ada Lovelace" "1234" 60).2 =
      [("Ada Lovelace", 3, 0)] :=
  locked_failure_leaves_state_unchanged adaStore [("Ada Lovelace", 3, 0)]
    "Ada Lovelace" "1234" 60 (by decide)

/-- C6: a token issued by `create_access_token` from a (name, role, userId)
triple, decoded at any instant before its 24-hour expiry, yields back
exactly the same name as the subject claim together with the same role and
user id. -/
theorem token_roundtrip (name role : String) (uid : Nat)
    (issuedAt validAt : Int)
    (h : validAt < (create_access_token name role uid issuedAt).exp) :
    decode_token (create_access_token name role uid issuedAt) validAt =
      some (name, role, uid) := by
  unfold decode_token
  rw [if_pos h]
  rfl

theorem token_roundtrip_witness :
    decode_token (create_access_token "Ada Lovelace" "user" 1 0) 3600 =
      some ("Ada Lovelace", "user", 1) :=
  token_roundtrip "Ada Lovelace" "user" 1 0 3600 (by decide)

/-! ### The registration retry loop -/

theorem regLoop_existing_inv (store : List UserRec) (name : String)
    (pins : Nat → String) :
    ∀ fuel pin attempts,
      (regLoop store name pins fuel pin (existsNamePin store name pin)
        attempts).2.2 =
      existsNamePin store name
        (regLoop store name pins fuel pin (existsNamePin store name pin)
          attempts).2.1 := by
  intro fuel
  induction fuel with
  | zero => intro pin attempts; rfl
  | succ f ih =>
    intro pin attempts
    unfold regLoop
    by_cases hc :
        (existsNamePin store name pin && decide (attempts < 100)) = true
    · rw [if_pos hc]
      exact ih (pins (attempts + 1)) (attempts + 1)
    · rw [if_neg hc]

theorem regLoop_exit (store : List UserRec) (name : String)
    (pins : Nat → String) :
    ∀ fuel pin ex attempts, 101 ≤ fuel + attempts →
      (regLoop store name pins fuel pin ex attempts).2.2 = false ∨
      100 ≤ (regLoop store name pins fuel pin ex attempts).1 := by
  intro fuel
  induction fuel with
  | zero =>
    intro pin ex attempts h
    right
    unfold regLoop
    omega
  | succ f ih =>
    intro pin ex attempts h
    unfold regLoop
    by_cases hc : (ex && decide (attempts < 100)) = true
    · rw [if_pos hc]
      exact ih _ _ _ (by omega)
    · rw [if_neg hc]
      by_cases hex : ex = true
      · right
        have hlt : ¬(attempts < 100) := by
          intro hlt
          exact hc (by simp [hex, hlt])
        show 100 ≤ attempts
        omega
      · left
        show ex = false
        simpa using hex

theorem regLoop_count (store : List UserRec) (name : String)
    (pins : Nat → String) :
    ∀ fuel attempts, attempts ≤ 100 → 101 ≤ fuel + attempts →
      (100 ≤ (regLoop store name pins fuel (pins attempts)
          (existsNamePin store name (pins attempts)) attempts).1 ↔
        ∀ k, attempts ≤ k → k < 100 →
          existsNamePin store name (pins k) = true) := by
  intro fuel
  induction fuel with
  | zero =>
    intro attempts h100 hf
    exfalso
    omega
  | succ f ih =>
    intro attempts h100 hf
    unfold regLoop
    by_cases hlt : attempts < 100
    · by_cases hcol : existsNamePin store name (pins attempts) = true
      · rw [if_pos (by simp [hcol, hlt])]
        rw [ih (attempts + 1) (by omega) (by omega)]
        constructor
        · intro hall k hk1 hk2
          by_cases hke : k = attempts
          · rw [hke]; exact hcol
          · exact hall k (by omega) hk2
        · intro hall k hk1 hk2
          exact hall k (by omega) hk2
      · rw [if_neg (by simp [hcol])]
        constructor
        · intro hcontra
          exfalso
          show False
          have : ¬(100 ≤ attempts) := by omega
          exact this hcontra
        · intro hall
          exact absurd (hall attempts (by omega) hlt) hcol
    · rw [if_neg (by simp [hlt])]
      have heq : attempts = 100 := by omega
      constructor
      · intro _ k hk1 hk2
        omega
      · intro _
        show 100 ≤ attempts
        omega

theorem register_user_ok_shape (store : List UserRec) (name : String)
    (pins : Nat → String) (newId : Nat) (s2 : List UserRec) (pin : String)
    (h : register_user store name pins newId = .ok (s2, pin)) :
    s2 = store ++ [⟨newId, name, pin, "user"⟩] ∧
    existsNamePin store name pin = false := by
  unfold register_user at h
  dsimp only at h
  by_cases h100 :
      100 ≤ (regLoop store name pins 101 (pins 0)
        (existsNamePin store name (pins 0)) 0).1
  · rw [if_pos h100] at h
    exact nomatch h
  · rw [if_neg h100] at h
    injection h with h1
    obtain ⟨hs, hp⟩ := Prod.mk.injEq _ _ _ _ ▸ h1.symm
    have hexit := regLoop_exit store name pins 101 (pins 0)
      (existsNamePin store name (pins 0)) 0 (by omega)
    have hfalse : (regLoop store name pins 101 (pins 0)
        (existsNamePin store name (pins 0)) 0).2.2 = false := by
      rcases hexit with hh | hh
      · exact hh
      · exact absurd hh h100
    have hinv := regLoop_existing_inv store name pins 101 (pins 0) 0
    rw [hinv] at hfalse
    rw [← hp] at hfalse hs
    exact ⟨hs, hfalse⟩

theorem registerApply_preserves (store : List UserRec) (name : String)
    (pins : Nat → String) (newId : Nat) (hu : PinUnique store) :
    PinUnique (registerApply store name pins newId) := by
  unfold registerApply
  cases hr : register_user store name pins newId with
  | error e => exact hu
  | ok p =>
    obtain ⟨s2, pin⟩ := p
    obtain ⟨hs, hcol⟩ := register_user_ok_shape store name pins newId s2 pin hr
    subst hs
    rw [PinUnique, List.pairwise_append]
    refine ⟨hu, List.pairwise_singleton _ _, ?_⟩
    intro u hu2 v hv
    simp only [List.mem_singleton] at hv
    subst hv
    rintro ⟨hn, hp⟩
    have hcontra : existsNamePin store name pin = true := by
      simp only [existsNamePin, List.any_eq_true]
      exact ⟨u, hu2, by simp [hn, hp]⟩
    rw [hcol] at hcontra
    exact Bool.false_ne_true hcontra

/-- C7: registration preserves the invariant that no two stored identities
share both the full name and the PIN: any sequence of `register_user`
requests applied to a store satisfying the uniqueness leaves it satisfied
(the collision probe re-generates the PIN while the exact (name, pin) pair
exists, and on exhaustion the request fails without storing anything). -/
theorem registration_preserves_pin_uniqueness (store : List UserRec)
    (reqs : List (String × (Nat → String) × Nat)) (hu : PinUnique store) :
    PinUnique (registerSeq store reqs) := by
  induction reqs generalizing store with
  | nil => exact hu
  | cons r rs ih =>
    exact ih (registerApply store r.1 r.2.1 r.2.2)
      (registerApply_preserves store r.1 r.2.1 r.2.2 hu)

theorem registration_preserves_pin_uniqueness_witness :
    PinUnique (registerSeq []
      [("Ada Lovelace", fun _ => "1234", 1),
       ("Ada Lovelace", fun _ => "1234", 2)]) :=
  registration_preserves_pin_uniqueness []
    [("Ada Lovelace", fun _ => "1234", 1), ("Ada Lovelace", fun _ => "1234", 2)]
    (by decide)

def collStore : List UserRec := [⟨1, "A", "0000", "user"⟩]

def collPins : Nat → String := fun k => if k < 100 then "0000" else "0001"

/-- C8 as stated is false: with a store holding ("A", "0000") and a PIN
stream whose first 100 draws are the colliding "0000" but whose 101-st draw
(the 100th regeneration, made inside the loop's final iteration) is the
unique "0001", `register_user` still fails with the 500 issuance error: the
loop increments `attempts` to 100 on the very iteration that produced the
unique PIN, and the `attempts >= 100` test ignores the outcome of that
draw. -/
theorem issuance_error_despite_unique_pin_cx :
    register_user collStore "A" collPins 2 = .error .IssuanceExhausted ∧
    existsNamePin collStore "A" (collPins 100) = false := by decide

/-- C8 amended: `register_user` fails with the issuance error iff the
initially generated PIN and the first 99 regenerated PINs (draws 0..99) all
collide with stored (name, pin) pairs; in that case the result of the 100th
regeneration is discarded, so the request can fail even though that final
draw produced a unique PIN. When it fails, no identity record is stored. -/
theorem register_fails_iff_first_100_collide (store : List UserRec)
    (name : String) (pins : Nat → String) (newId : Nat) :
    (register_user store name pins newId = .error .IssuanceExhausted ↔
      ∀ k, k < 100 → existsNamePin store name (pins k) = true) ∧
    (register_user store name pins newId = .error .IssuanceExhausted →
      registerApply store name pins newId = store) := by
  constructor
  · have hcnt := regLoop_count store name pins 101 0 (by omega) (by omega)
    unfold register_user
    dsimp only
    by_cases h100 :
        100 ≤ (regLoop store name pins 101 (pins 0)
          (existsNamePin store name (pins 0)) 0).1
    · rw [if_pos h100]
      constructor
      · intro _ k hk
        exact (hcnt.mp h100) k (Nat.zero_le k) hk
      · intro _
        rfl
    · rw [if_neg h100]
      constructor
      · intro hh
        exact nomatch hh
      · intro hall
        exact absurd (hcnt.mpr (fun k _ hk => hall k hk)) h100
  · intro herr
    unfold registerApply
    rw [herr]

theorem register_fails_iff_first_100_collide_witness :
    register_user collStore "A" (fun _ => "0000") 2 =
      .error .IssuanceExhausted :=
  (register_fails_iff_first_100_collide collStore "A" (fun _ => "0000") 2).1.mpr
    (by decide)

def preAbielStore : List UserRec := [⟨1, "Abiel Robinson", "1234", "user"⟩]

/-- C10 as stated is false in its conclusion: if the store already holds a
non-admin identity named "Abiel Robinson" (a name any registration request
may take, with an arbitrary PIN), startup leaves the store unchanged, and
no admin identity with PIN "0000" exists after startup. -/
theorem startup_admin_not_guaranteed_cx :
    lifespan_admin_init preAbielStore 2 = preAbielStore ∧
    (lifespan_admin_init preAbielStore 2).any
      (fun u => u.role == "admin" && u.pin_code == "0000") = false := by decide

/-- C10 amended: on startup, when no identity named "Abiel Robinson" exists,
one is created with the fixed PIN "0000" and role admin — so after a startup
from such a store the credential store does contain an admin identity with
that hardcoded PIN. (When a record of that name already exists, even a
non-admin one, the store is left unchanged and no such admin is
guaranteed.) -/
theorem startup_creates_admin_when_absent (store : List UserRec) (newId : Nat)
    (h : store.any (fun u => u.full_name == "Abiel Robinson") = false) :
    lifespan_admin_init store newId = store ++ [defaultAdmin newId] ∧
    (lifespan_admin_init store newId).any
      (fun u => u.full_name == "Abiel Robinson" && u.role == "admin" &&
        u.pin_code == "0000") = true := by
  have h1 : lifespan_admin_init store newId = store ++ [defaultAdmin newId] := by
    unfold lifespan_admin_init
    rw [if_neg (by rw [h]; exact Bool.false_ne_true)]
  refine ⟨h1, ?_⟩
  rw [h1]
  simp [defaultAdmin]

theorem startup_creates_admin_when_absent_witness :
    lifespan_admin_init [] 1 = [defaultAdmin 1] ∧
    (lifespan_admin_init [] 1).any
      (fun u => u.full_name == "Abiel Robinson" && u.role == "admin" &&
        u.pin_code == "0000") = true :=
  startup_creates_admin_when_absent [] 1 (by decide)
